import Mathlib

/-!
Verification development for the VNSCA Tally data processor
(`src/data_processor.py` together with the constants of `src/config.py`).

The Python code works on a pandas DataFrame (`self.raw_data`): a rectangular
grid of scalar cells.  We embed a cell as a sum of the three scalar shapes the
program distinguishes (`pd.isna` blank / numeric / string) and a grid as a
list of rows of cells.  Numeric cells are embedded with integer values: every
operation the program performs on a number is either `pd.notna` (always true
for a number), the numeric test of `_is_numeric` (always true), the raw
comparison `!= 0`, or `str(val)` followed by substring matching against purely
alphabetic keyword lists, for which the decimal rendering of an integer
behaves exactly like Python's rendering of the number.  Python string
operations (`lower`, `strip`, `in`, `join`) are re-implemented over the
character list of the string so that all definitions reduce in the kernel.
-/

/-- One scalar cell of the loaded sheet: `blank` is a cell for which
`pd.isna` holds (missing / NaN), `num` a numeric cell, `str` a text cell. -/
inductive Cell where
  | blank : Cell
  | num : Int → Cell
  | str : String → Cell
deriving DecidableEq, Repr

/-- Python `pd.notna(val)` on a cell: false exactly on a missing cell.
Note that the empty string is notna in pandas. -/
def notna : Cell → Bool
  | Cell.blank => false
  | _ => true

/-- Python `str(val)` for a non-blank cell (a blank renders as "nan", but the
code only ever stringifies cells that passed `pd.notna`). -/
def cellRepr : Cell → String
  | Cell.blank => "nan"
  | Cell.num n => toString n
  | Cell.str s => s

/-- Python `s.lower()` (ASCII case folding, which covers every string the
configuration lists and the claims use). -/
def lowerStr (s : String) : String := ⟨s.data.map Char.toLower⟩

/-- Python `s.strip()`: drop whitespace from both ends. -/
def stripStr (s : String) : String :=
  ⟨((s.data.dropWhile Char.isWhitespace).reverse.dropWhile Char.isWhitespace).reverse⟩

/-- Helper for Python substring search: is `a` a leading run of `b`. -/
def isPrefixL : List Char → List Char → Bool
  | [], _ => true
  | _ :: _, [] => false
  | a :: as, b :: bs => a == b && isPrefixL as bs

/-- Python `a in b` on strings, over the character lists: `a` occurs
contiguously in `b` (the empty string occurs in everything). -/
def isInfixL (a : List Char) : List Char → Bool
  | [] => a.isEmpty
  | c :: bs => isPrefixL a (c :: bs) || isInfixL a bs

/-- Python `a in b` for strings. -/
def isSubstr (a b : String) : Bool := isInfixL a.data b.data

/-- Python `sep.join(parts)`. -/
def joinSep (sep : String) : List String → String
  | [] => ""
  | [x] => x
  | x :: y :: xs => x ++ sep ++ joinSep sep (y :: xs)

/-- State of `digitsDot`: whether the remaining characters form digits with at
most one decimal point, given whether a digit / a dot was already seen. -/
def digitsDot : List Char → Bool → Bool → Bool
  | [], seenDigit, _ => seenDigit
  | c :: rest, seenDigit, seenDot =>
    if c.isDigit then digitsDot rest true seenDot
    else if c == '.' then (if seenDot then false else digitsDot rest seenDigit true)
    else false

/-- Success of Python `float(s)` on a finite decimal literal: optional
surrounding whitespace, an optional sign, then digits with at most one
decimal point and at least one digit.  Scientific notation and the
infinity literals are outside the modelled fragment; the literal "nan"
parses in Python but is then rejected by the `pd.isna` check inside
`_is_numeric`, so rejecting it here gives the same verdict. -/
def isNumericStr (s : String) : Bool :=
  match (stripStr s).data with
  | '+' :: r => digitsDot r false false
  | '-' :: r => digitsDot r false false
  | r => digitsDot r false false

/-- The method `_is_numeric` (src/data_processor.py lines 259-276): a blank
(NaN) cell is not numeric; a number is; a string is numeric when `float`
parses it to a non-NaN value. -/
def isNumericCell : Cell → Bool
  | Cell.blank => false
  | Cell.num _ => true
  | Cell.str s => isNumericStr s

/-- The raw Python comparison `row[col] != 0` (line 249): a number is compared
by value, while NaN and any string compare unequal to the integer 0. -/
def cellNeZero : Cell → Bool
  | Cell.blank => true
  | Cell.num n => n != 0
  | Cell.str _ => true

/-- The per-cell test of `process_ledger_head` line 249:
`self._is_numeric(row[col]) and row[col] != 0`. -/
def ledgerTest (v : Cell) : Bool := isNumericCell v && cellNeZero v

/-- Configuration constant `PR_SHEET_IDENTIFIER` of src/config.py. -/
def PR_SHEET_IDENTIFIER : String := "PR"

/-- Configuration constant `FOOTER_KEYWORDS` of src/config.py. -/
def FOOTER_KEYWORDS : List String :=
  ["total", "summary", "sum", "grand", "subtotal", "balance", "closing", "net", "amount"]

/-- Configuration constant `COMMON_HEADER_NAMES` of src/config.py. -/
def COMMON_HEADER_NAMES : List String :=
  ["date", "particular", "particulars", "voucher", "vch", "vch no", "voucher no",
   "debit", "credit", "amount", "dr", "cr", "balance",
   "narration", "description", "details", "account", "account name",
   "reference", "ref", "ref no", "transaction", "trans",
   "invoice", "inv", "inv no", "bill", "bill no", "receipt", "receipt no",
   "payment", "cheque", "chq", "chq no", "bank", "ledger"]

/-- The local list `key_columns` of `_detect_structure` (line 104). -/
def KEY_COLUMNS : List String := ["date", "particular", "voucher"]

/-- Count of non-blank cells of a row: Python
`sum(1 for val in row if pd.notna(val))`. -/
def nonEmptyCount (row : List Cell) : Nat := (row.filter notna).length

/-- The lower-cased stripped tokens of the non-blank cells of a row, Python
line 93: `[str(val).lower().strip() for val in row if pd.notna(val)]`. -/
def rowTokens (row : List Cell) : List String :=
  (row.filter notna).map (fun c => stripStr (lowerStr (cellRepr c)))

/-- Count of tokens matching some common header name by two-way substring
test, lines 96-101 (each token counted at most once thanks to the `break`). -/
def tokenMatches (toks : List String) : Nat :=
  (toks.filter (fun v =>
    COMMON_HEADER_NAMES.any (fun h => isSubstr h v || isSubstr v h))).length

/-- Count of tokens exactly equal to a key column name, line 105. -/
def keyMatches (toks : List String) : Nat :=
  (toks.filter (fun v => decide (v ∈ KEY_COLUMNS))).length

/-- The header score of one row, lines 96-109: name matches plus twice the
key matches (the Python guard `if key_matches > 0` adds `2*key_matches`,
which is also correct when the count is zero). -/
def rowScore (row : List Cell) : Nat :=
  tokenMatches (rowTokens row) + 2 * keyMatches (rowTokens row)

/-- The scan of lines 86-116 over the first `min(20, n)` rows: carry the
running `(best_header_row, max_header_matches, max_non_empty)` (the Python
sentinel `-1` for best is embedded as `none`); skip rows with at most two
non-blank cells; update on a strictly better score, or an equal score with
strictly more non-blank cells. -/
def bestHeaderAux : List (List Cell) → Nat → Option Nat → Nat → Nat →
    Option Nat × Nat × Nat
  | [], _, best, maxM, maxNE => (best, maxM, maxNE)
  | r :: rs, i, best, maxM, maxNE =>
    if 20 ≤ i then (best, maxM, maxNE)
    else if nonEmptyCount r ≤ 2 then bestHeaderAux rs (i + 1) best maxM maxNE
    else
      let m := rowScore r
      if maxM < m ∨ (m = maxM ∧ maxNE < nonEmptyCount r) then
        bestHeaderAux rs (i + 1) (some i) m (nonEmptyCount r)
      else bestHeaderAux rs (i + 1) best maxM maxNE

/-- The fallback header walk of lines 131-141, entered when no row scores at
least 2: a row is a header when a third of the row width is exceeded by its
non-numeric non-blank cells and a quarter by its non-blank cells, or (for the
first five rows) it has more than three non-blank cells with a non-numeric
fraction above 0.7; the first later non-blank row failing the test stops the
walk; a failing blank row (or the very first row) is merely skipped.  The
Python float comparisons `> len/3`, `> len/4` and `> 0.7` are embedded as the
exact rational comparisons by cross-multiplication. -/
def fallbackHeaders : List (List Cell) → Nat → List Nat
  | [], _ => []
  | r :: rs, i =>
    let nonNum := (r.filter (fun v => !isNumericCell v && notna v)).length
    let ne := nonEmptyCount r
    if (r.length < 3 * nonNum ∧ r.length < 4 * ne) ∨
       (i < 5 ∧ 3 < ne ∧ 7 * max ne 1 < 10 * nonNum) then
      i :: fallbackHeaders rs (i + 1)
    else if 0 < i ∧ 0 < ne then []
    else fallbackHeaders rs (i + 1)

/-- Header detection, lines 77-144: returns the list `header_rows` and the
optional `_header_row_index`.  When the best scored row reaches the threshold
of 2 the header rows are every row up to and including it; otherwise the
fallback walk is used and no single row is trusted to name columns. -/
def detectHeader (rows : List (List Cell)) : List Nat × Option Nat :=
  match (bestHeaderAux rows 0 none 0 0).1 with
  | some j =>
    if 2 ≤ (bestHeaderAux rows 0 none 0 0).2.1 then (List.range (j + 1), some j)
    else (fallbackHeaders rows 0, none)
  | none => (fallbackHeaders rows 0, none)

/-- The lower-cased concatenated text of a row used by footer detection,
lines 167-168: the non-blank cells stringified and lower-cased, joined by
single spaces (and lower-cased once more, a no-op retained for fidelity). -/
def rowText (row : List Cell) : String :=
  lowerStr (joinSep " " ((row.filter notna).map (fun c => lowerStr (cellRepr c))))

/-- The guarded append of line 172-174: a row index just after a keyword row
joins the footer when it is in range and not already classified. -/
def footerPull (header acc : List Nat) (n j : Nat) : List Nat :=
  if j < n ∧ ¬ j ∈ acc ∧ ¬ j ∈ header then acc ++ [j] else acc

/-- The bottom-up footer scan of lines 146-179.  The first argument of the
recursion is the number of rows still below the cursor, so `fuel = i + 1`
means the cursor is at row `i`; `consec` counts consecutive near-blank rows
and `acc` is the footer list built so far.  A header row stops the scan; a
row with at most two non-blank cells is absorbed (the third consecutive one
stops the scan); a row whose text contains a footer keyword is absorbed
together with up to two following rows; any other row stops the scan once
the cursor is more than five rows above the bottom. -/
def footerAux (rows : List (List Cell)) (n : Nat) (header : List Nat) :
    Nat → Nat → List Nat → List Nat
  | 0, _, acc => acc
  | i + 1, consec, acc =>
    if i ∈ header then acc
    else if nonEmptyCount (rows.getD i []) ≤ 2 then
      (if 3 ≤ consec + 1 then acc ++ [i]
       else footerAux rows n header i (consec + 1) (acc ++ [i]))
    else if FOOTER_KEYWORDS.any (fun kw => isSubstr kw (rowText (rows.getD i []))) then
      footerAux rows n header i 0
        (footerPull header (footerPull header (acc ++ [i]) n (i + 1)) n (i + 2))
    else if i + 5 < n then acc
    else footerAux rows n header i 0 acc

/-- The method `_detect_structure` (lines 70-179): header rows with the
optional header row index, then the footer scan from the last row. -/
def detectStructure (rows : List (List Cell)) :
    List Nat × List Nat × Option Nat :=
  ((detectHeader rows).1,
   footerAux rows rows.length (detectHeader rows).1 rows.length 0 [],
   (detectHeader rows).2)

/-- The data-row index list of `_extract_data_rows` lines 186-188:
`sorted(list(all_rows - exclude_rows))`.  A set of naturals drawn from
`range n` sorts ascending uniquely, so the sorted set difference is the
ascending filter of the index range. -/
def dataRowsIdx (n : Nat) (header footer : List Nat) : List Nat :=
  (List.range n).filter (fun i => decide (¬ i ∈ header ∧ ¬ i ∈ footer))

/-- The normalized table: named columns and data rows, each row positional
under the column list (a pandas DataFrame). -/
structure Table where
  cols : List String
  rows : List (List Cell)
deriving DecidableEq, Repr

/-- Column-name cleanup of `_extract_data_rows` lines 194-205: a blank header
cell, a name that strips to nothing, or the literal "nan" becomes the
1-based positional placeholder. -/
def columnNames (row : List Cell) : List String :=
  row.enum.map (fun p =>
    match p.2 with
    | Cell.blank => "Column_" ++ toString (p.1 + 1)
    | h =>
      let c := stripStr (cellRepr h)
      if c = "" ∨ lowerStr c = "nan" then "Column_" ++ toString (p.1 + 1) else c)

/-- The method `_extract_data_rows` (lines 181-211): select the data rows in
ascending order; with an identified header row its cleaned cell values name
the columns, otherwise the original (pandas) column labels are kept. -/
def buildTable (grid : List (List Cell)) (origCols : List String) : Table :=
  match (detectStructure grid).2.2 with
  | some j =>
    ⟨columnNames (grid.getD j []),
     ((dataRowsIdx grid.length (detectStructure grid).1 (detectStructure grid).2.1).map
       (fun i => grid.getD i []))⟩
  | none =>
    ⟨origCols,
     ((dataRowsIdx grid.length (detectStructure grid).1 (detectStructure grid).2.1).map
       (fun i => grid.getD i []))⟩

/-- The method `add_columns` (lines 213-229) on a loaded table: each name not
already present is appended as a column whose value is the empty string in
every row. -/
def addColumns (t : Table) (names : List String) : Table :=
  names.foldl (fun acc c =>
    if c ∈ acc.cols then acc
    else ⟨acc.cols ++ [c], acc.rows.map (fun r => r ++ [Cell.str ""])⟩) t

/-- The method `add_columns` at the session level, where the table may not
exist yet (`self.processed_data is None`): with no table, an empty name list
never enters the loop body and succeeds, while a non-empty one raises on the
first attribute access and is reported as failure with nothing changed. -/
def addColumnsOp : Option Table → List String → Bool × Option Table
  | none, names => (names.isEmpty, none)
  | some t, names => (true, some (addColumns t names))

/-- Defensive creation of lines 242-243: if the table has no LEDGER HEAD
column, append one holding the empty string in every row. -/
def ensureLH (t : Table) : Table :=
  if "LEDGER HEAD" ∈ t.cols then t
  else ⟨t.cols ++ ["LEDGER HEAD"], t.rows.map (fun r => r ++ [Cell.str ""])⟩

/-- The inner loop of lines 246-250 for one row: fold the selected column
names, keeping those that exist in the table and pass the numeric-and-nonzero
test.  A name that is absent from the columns is skipped by the short-circuit
`col in self.processed_data.columns`.  A name that occurs more than once in
the columns makes the pandas lookup `row[col]` return a Series, on which
`pd.isna` inside `_is_numeric` raises; the raised exception is embedded as
`none`. -/
def passingCols (cols : List String) (row : List Cell) (sel : List String) :
    Option (List String) :=
  sel.foldl (fun acc c =>
    match acc with
    | none => none
    | some l =>
      if c ∈ cols then
        if cols.count c = 1 then
          (if ledgerTest (row.getD (cols.indexOf c) Cell.blank) then some (l ++ [c])
           else some l)
        else none
      else some l) (some [])

/-- Python `" + ".join(numeric_columns)` of line 253. -/
def joinPlus (l : List String) : String := joinSep " + " l

/-- The row loop of lines 245-253: rows are processed top to bottom; a row
whose passing list is non-empty gets the joined label written into its
LEDGER HEAD cell (line 252 writes only then); a raised exception aborts the
loop, leaving the rows already processed as they are and reporting failure. -/
def deriveGo (cols : List String) (lh : Nat) (sel : List String) :
    List (List Cell) → Bool × List (List Cell)
  | [] => (true, [])
  | row :: rest =>
    match passingCols cols row sel with
    | none => (false, row :: rest)
    | some [] =>
      let r := deriveGo cols lh sel rest
      (r.1, row :: r.2)
    | some (c :: cs) =>
      let r := deriveGo cols lh sel rest
      (r.1, row.set lh (Cell.str (joinPlus (c :: cs))) :: r.2)

/-- The method `process_ledger_head` (lines 231-257) on a loaded table:
create the LEDGER HEAD column if absent, then process every row. -/
def processLedgerHead (t : Table) (sel : List String) : Bool × Table :=
  let t1 := ensureLH t
  let r := deriveGo t1.cols (t1.cols.indexOf "LEDGER HEAD") sel t1.rows
  (r.1, ⟨t1.cols, r.2⟩)

/-- A well-formed (rectangular) table: every row has exactly one cell per
column, as any pandas DataFrame does. -/
def Wf (t : Table) : Prop := ∀ r ∈ t.rows, r.length = t.cols.length

/-- The sheet-name test of line 49: `PR_SHEET_IDENTIFIER.lower() in
sheet.lower()`. -/
def hasPR (sheet : String) : Bool :=
  isSubstr (lowerStr PR_SHEET_IDENTIFIER) (lowerStr sheet)

/-- Sheet selection of `load_file` lines 49-56: the first sheet whose name
contains "PR" case-insensitively, else the first sheet; on an empty sheet
list the subscript of line 55 raises, embedded as `none`. -/
def chooseSheet (names : List String) : Option String :=
  match names.filter hasPR with
  | s :: _ => some s
  | [] => names.head?

/-- Restatement of the specification's words for sheet selection, to be
compared with `chooseSheet`: scan the declared order for the first
case-insensitive match of the identifier token, else take the first sheet. -/
def chooseSheetSpec (names : List String) : Option String :=
  match names.find? hasPR with
  | some s => some s
  | none => names.head?

/-- One step of `add_columns` unfolded from the fold. -/
theorem addColumns_cons (t : Table) (a : String) (l : List String) :
    addColumns t (a :: l) =
      addColumns
        (if a ∈ t.cols then t
         else ⟨t.cols ++ [a], t.rows.map (fun r => r ++ [Cell.str ""])⟩) l := rfl

/-- Existing columns survive `add_columns`. -/
theorem addColumns_cols_mono (names : List String) :
    ∀ (t : Table) (c : String), c ∈ t.cols → c ∈ (addColumns t names).cols := by
  induction names with
  | nil => intro t c hc; exact hc
  | cons a l ih =>
    intro t c hc
    rw [addColumns_cons]
    apply ih
    by_cases ha : a ∈ t.cols
    · simpa [ha] using hc
    · simp [ha]
      exact Or.inl hc

/-- Every requested name is a column after `add_columns`. -/
theorem addColumns_mem_cols (names : List String) :
    ∀ (t : Table) (c : String), c ∈ names → c ∈ (addColumns t names).cols := by
  induction names with
  | nil => intro t c hc; cases hc
  | cons a l ih =>
    intro t c hc
    rcases List.mem_cons.mp hc with h | h
    · subst h
      rw [addColumns_cons]
      apply addColumns_cols_mono
      by_cases ha : c ∈ t.cols
      · simp [ha]
      · simp [ha]
    · rw [addColumns_cons]
      exact ih _ c h

/-- When every requested name is already a column, `add_columns` is the
identity. -/
theorem addColumns_id_of_mem (names : List String) :
    ∀ (t : Table), (∀ c ∈ names, c ∈ t.cols) → addColumns t names = t := by
  induction names with
  | nil => intro t _; rfl
  | cons a l ih =>
    intro t h
    rw [addColumns_cons, if_pos (h a (List.mem_cons_self a l))]
    exact ih t (fun c hc => h c (List.mem_cons_of_mem a hc))

/-- C7: `addColumns` run twice with the same name list gives exactly the
table of one run — every name present after the first run makes every step of
the second run a no-op, so columns, their order and all cell values agree. -/
theorem claim_C7 (t : Table) (names : List String) :
    addColumns (addColumns t names) names = addColumns t names :=
  addColumns_id_of_mem names _ (fun c hc => addColumns_mem_cols names t c hc)

/-- Head of a filtered list is the first element satisfying the test. -/
theorem head_filter_eq_find (p : String → Bool) :
    ∀ l : List String, (l.filter p).head? = l.find? p := by
  intro l
  induction l with
  | nil => rfl
  | cons a l ih =>
    by_cases h : p a = true
    · simp [List.filter_cons, h, List.find?_cons_of_pos]
    · simp [List.filter_cons, h, List.find?_cons_of_neg, ih]

/-- C8: the sheet chosen by `load_file` is the first sheet name containing
"PR" case-insensitively, else the first declared sheet, and on a non-empty
sheet list a sheet is always chosen: selection is a total deterministic
function of the sheet-name list. -/
theorem claim_C8 (names : List String) :
    chooseSheet names = chooseSheetSpec names ∧
    (¬ names = [] → (chooseSheet names).isSome = true) := by
  constructor
  · unfold chooseSheet chooseSheetSpec
    rw [← head_filter_eq_find hasPR names]
    cases h : names.filter hasPR with
    | nil => simp
    | cons s l => simp
  · intro h
    cases names with
    | nil => exact absurd rfl h
    | cons a l =>
      unfold chooseSheet
      cases hf : (a :: l).filter hasPR with
      | nil => simp
      | cons s r => simp

/-- Witness for C8 at a concrete sheet list. -/
theorem claim_C8_witness :
    chooseSheet ["Sales", "PR Data"] = chooseSheetSpec ["Sales", "PR Data"] ∧
    (chooseSheet ["Sales", "PR Data"]).isSome = true :=
  ⟨(claim_C8 ["Sales", "PR Data"]).1, (claim_C8 ["Sales", "PR Data"]).2 (by decide)⟩

/-- Counterexample to C2: the string cell "0" parses as the floating-point
number 0, yet the Deriver counts it — the non-zero check of line 249 compares
the raw cell with the integer 0 and a Python string is never equal to a
number, so on the table with one column "A" holding the cell "0" the derived
label is "A", not the empty exclusion the claim requires. -/
theorem claim_C2_counterexample :
    ledgerTest (Cell.str "0") = true ∧
    (processLedgerHead ⟨["A", "LEDGER HEAD"], [[Cell.str "0", Cell.str ""]]⟩ ["A"]).2.rows
      = [[Cell.str "0", Cell.str "A"]] := by decide

/-- C2 as amended: the per-cell test of the Deriver accepts exactly the
numeric cells with value other than 0 and the string cells that parse as a
number — including the string "0", since the raw comparison `!= 0` never
excludes a string; blank and non-parsable cells are excluded. -/
theorem claim_C2 (v : Cell) :
    ledgerTest v = true ↔
      ((∃ n : Int, v = Cell.num n ∧ ¬ n = 0) ∨
       (∃ s : String, v = Cell.str s ∧ isNumericStr s = true)) := by
  cases v with
  | blank => simp [ledgerTest, isNumericCell, cellNeZero]
  | num n => simp [ledgerTest, isNumericCell, cellNeZero, bne_iff_ne]
  | str s => simp [ledgerTest, isNumericCell, cellNeZero]

/-- The grid of Scenario A, padded to the rectangular shape pandas gives it. -/
def GA : List (List Cell) :=
  [[Cell.str "Report Title", Cell.blank, Cell.blank, Cell.blank],
   [Cell.str "Date", Cell.str "Particular", Cell.str "Debit", Cell.str "Credit"],
   [Cell.str "1/1/25", Cell.str "Rent", Cell.num 1000, Cell.num 0],
   [Cell.str "Total", Cell.str "", Cell.str "1000", Cell.str "0"]]

/-- C3: on the Scenario A grid, structure detection yields header row index 1
with header rows 0 and 1, footer row 3, data row 2, and the normalized table
carries the four detected column names and exactly one data row. -/
theorem claim_C3 :
    detectStructure GA = ([0, 1], [3], some 1) ∧
    dataRowsIdx GA.length (detectStructure GA).1 (detectStructure GA).2.1 = [2] ∧
    (buildTable GA []).cols = ["Date", "Particular", "Debit", "Credit"] ∧
    (buildTable GA []).rows.length = 1 := by decide

/-- Counterexample to C1: on the table with columns A (value 5) and B
(value 0), deriving with A and then with B leaves the label "A" in LEDGER
HEAD, because line 252 writes only when some selected column passes, while a
single derivation with B leaves the freshly created empty label — the second
call does not fully overwrite the first. -/
theorem claim_C1_counterexample :
    ¬ ((processLedgerHead
          (processLedgerHead ⟨["A", "B"], [[Cell.num 5, Cell.num 0]]⟩ ["A"]).2 ["B"]).2
        = (processLedgerHead ⟨["A", "B"], [[Cell.num 5, Cell.num 0]]⟩ ["B"]).2) := by decide

/-- The row loop rewritten as a map when no row raised: every row with a
non-empty passing list gets the joined label, every other row is returned
unchanged. -/
theorem deriveGo_eq_map (cols : List String) (lh : Nat) (sel : List String) :
    ∀ rows : List (List Cell), (deriveGo cols lh sel rows).1 = true →
      (deriveGo cols lh sel rows).2 = rows.map (fun row =>
        match passingCols cols row sel with
        | some [] => row
        | some (c :: cs) => row.set lh (Cell.str (joinPlus (c :: cs)))
        | none => row) := by
  intro rows
  induction rows with
  | nil => intro _; rfl
  | cons row rest ih =>
    have hd : deriveGo cols lh sel (row :: rest) =
        match passingCols cols row sel with
        | none => (false, row :: rest)
        | some [] => ((deriveGo cols lh sel rest).1, row :: (deriveGo cols lh sel rest).2)
        | some (c :: cs) => ((deriveGo cols lh sel rest).1,
            row.set lh (Cell.str (joinPlus (c :: cs))) :: (deriveGo cols lh sel rest).2) := rfl
    intro h
    cases hp : passingCols cols row sel with
    | none => rw [hd] at h; simp [hp] at h
    | some l =>
      cases l with
      | nil =>
        rw [hd] at h ⊢
        simp only [hp] at h ⊢
        simp only [List.map_cons, hp]
        exact congrArg (row :: ·) (ih h)
      | cons c cs =>
        rw [hd] at h ⊢
        simp only [hp] at h ⊢
        simp only [List.map_cons, hp]
        exact congrArg (_ :: ·) (ih h)

/-- C1 as amended: a successful derivation maps each row independently —
rows where at least one selected column passes the numeric-and-nonzero test
get exactly the joined label of the passing columns, and rows where none
passes keep their previous LEDGER HEAD value (possibly a label from an
earlier call), so a second call overwrites only the rows it relabels. -/
theorem claim_C1 (t : Table) (sel : List String)
    (h : (processLedgerHead t sel).1 = true) :
    (processLedgerHead t sel).2.rows =
      (ensureLH t).rows.map (fun row =>
        match passingCols (ensureLH t).cols row sel with
        | some [] => row
        | some (c :: cs) =>
          row.set ((ensureLH t).cols.indexOf "LEDGER HEAD")
            (Cell.str (joinPlus (c :: cs)))
        | none => row) :=
  deriveGo_eq_map _ _ _ _ h

/-- Witness for C1 as amended, at the counterexample table. -/
theorem claim_C1_witness :
    (processLedgerHead ⟨["A", "B"], [[Cell.num 5, Cell.num 0]]⟩ ["A"]).2.rows =
      (ensureLH ⟨["A", "B"], [[Cell.num 5, Cell.num 0]]⟩).rows.map (fun row =>
        match passingCols (ensureLH ⟨["A", "B"], [[Cell.num 5, Cell.num 0]]⟩).cols row ["A"] with
        | some [] => row
        | some (c :: cs) =>
          row.set ((ensureLH ⟨["A", "B"], [[Cell.num 5, Cell.num 0]]⟩).cols.indexOf "LEDGER HEAD")
            (Cell.str (joinPlus (c :: cs)))
        | none => row) :=
  claim_C1 ⟨["A", "B"], [[Cell.num 5, Cell.num 0]]⟩ ["A"] (by decide)

/-- Rows accepted by the fallback header walk lie at or after its cursor. -/
theorem fallbackHeaders_lb :
    ∀ (rs : List (List Cell)) (i x : Nat), x ∈ fallbackHeaders rs i → i ≤ x := by
  intro rs
  induction rs with
  | nil => intro i x hx; simp [fallbackHeaders] at hx
  | cons r rs ih =>
    intro i x hx
    simp only [fallbackHeaders] at hx
    split_ifs at hx with h1 h2
    · rcases List.mem_cons.mp hx with h | h
      · exact le_of_eq h.symm
      · exact Nat.le_of_succ_le (ih (i + 1) x h)
    · cases hx
    · exact Nat.le_of_succ_le (ih (i + 1) x hx)

/-- The fallback header walk produces strictly increasing row indices. -/
theorem fallbackHeaders_pairwise :
    ∀ (rs : List (List Cell)) (i : Nat), List.Pairwise (· < ·) (fallbackHeaders rs i) := by
  intro rs
  induction rs with
  | nil => intro i; simp [fallbackHeaders]
  | cons r rs ih =>
    intro i
    simp only [fallbackHeaders]
    split_ifs with h1 h2
    · exact List.Pairwise.cons
        (fun x hx => Nat.lt_of_lt_of_le (Nat.lt_succ_self i) (fallbackHeaders_lb rs (i + 1) x hx))
        (ih (i + 1))
    · exact List.Pairwise.nil
    · exact ih (i + 1)

/-- Counterexample to C5: on the grid whose first row is entirely blank and
whose second row holds four non-matching words, the scored path fails the
threshold and the fallback walk skips the blank row 0 but accepts row 1, so
the header set is the non-empty set that omits 0 — not a contiguous prefix
of the row indices. -/
theorem claim_C5_counterexample :
    ¬ (detectStructure [[Cell.blank, Cell.blank, Cell.blank, Cell.blank],
        [Cell.str "xx", Cell.str "yy", Cell.str "zz", Cell.str "ww"]]).1 = [] ∧
    ¬ 0 ∈ (detectStructure [[Cell.blank, Cell.blank, Cell.blank, Cell.blank],
        [Cell.str "xx", Cell.str "yy", Cell.str "zz", Cell.str "ww"]]).1 ∧
    1 ∈ (detectStructure [[Cell.blank, Cell.blank, Cell.blank, Cell.blank],
        [Cell.str "xx", Cell.str "yy", Cell.str "zz", Cell.str "ww"]]).1 := by decide

/-- C5 as amended: when a header row index is identified (the scored path)
the header set is exactly the contiguous prefix of indices up to and
including it; in the fallback path the header set is a strictly ascending
list of row indices, but need not be contiguous nor start at row 0. -/
theorem claim_C5 (rows : List (List Cell)) :
    ((detectStructure rows).2.2).elim
      (List.Pairwise (· < ·) (detectStructure rows).1)
      (fun j => (detectStructure rows).1 = List.range (j + 1)) := by
  cases hb : (bestHeaderAux rows 0 none 0 0).1 with
  | none =>
    simp only [detectStructure, detectHeader, hb]
    exact fallbackHeaders_pairwise rows 0
  | some j =>
    simp only [detectStructure, detectHeader, hb]
    split_ifs with h2
    · rfl
    · exact fallbackHeaders_pairwise rows 0

/-- C6: the data rows of the normalized table are exactly the grid rows whose
indices are in neither the header nor the footer set, taken in strictly
ascending original order. -/
theorem claim_C6 (grid : List (List Cell)) (origCols : List String) :
    (buildTable grid origCols).rows
        = (dataRowsIdx grid.length (detectStructure grid).1 (detectStructure grid).2.1).map
            (fun i => grid.getD i []) ∧
    (∀ i, i ∈ dataRowsIdx grid.length (detectStructure grid).1 (detectStructure grid).2.1
        ↔ (i < grid.length ∧ ¬ i ∈ (detectStructure grid).1
            ∧ ¬ i ∈ (detectStructure grid).2.1)) ∧
    List.Pairwise (· < ·)
      (dataRowsIdx grid.length (detectStructure grid).1 (detectStructure grid).2.1) := by
  refine ⟨?_, ?_, ?_⟩
  · simp only [buildTable]
    split <;> rfl
  · intro i
    simp [dataRowsIdx, List.mem_filter, List.mem_range, and_assoc]
  · exact List.Pairwise.sublist (List.filter_sublist _) (List.pairwise_lt_range _)

/-- A best row reported by the header scan is either the carried candidate or
one of the scanned row positions. -/
theorem bestHeaderAux_some :
    ∀ (rs : List (List Cell)) (i : Nat) (b : Option Nat) (m ne j : Nat),
      (bestHeaderAux rs i b m ne).1 = some j → b = some j ∨ j < i + rs.length := by
  intro rs
  induction rs with
  | nil => intro i b m ne j h; exact Or.inl h
  | cons r rs ih =>
    intro i b m ne j h
    simp only [bestHeaderAux] at h
    split_ifs at h with h20 hskip hupd
    · exact Or.inl h
    · rcases ih (i + 1) b m ne j h with h' | h'
      · exact Or.inl h'
      · right; simp only [List.length_cons]; omega
    · rcases ih (i + 1) (some i) _ _ j h with h' | h'
      · right
        have : i = j := Option.some.inj h'
        simp only [List.length_cons]; omega
      · right; simp only [List.length_cons]; omega
    · rcases ih (i + 1) b m ne j h with h' | h'
      · exact Or.inl h'
      · right; simp only [List.length_cons]; omega

/-- Rows accepted by the fallback header walk are scanned row positions. -/
theorem fallbackHeaders_lt :
    ∀ (rs : List (List Cell)) (i x : Nat), x ∈ fallbackHeaders rs i → x < i + rs.length := by
  intro rs
  induction rs with
  | nil => intro i x hx; simp [fallbackHeaders] at hx
  | cons r rs ih =>
    intro i x hx
    simp only [fallbackHeaders] at hx
    split_ifs at hx with h1 h2
    · rcases List.mem_cons.mp hx with h | h
      · subst h; simp only [List.length_cons]; omega
      · have := ih (i + 1) x h; simp only [List.length_cons]; omega
    · cases hx
    · have := ih (i + 1) x hx; simp only [List.length_cons]; omega

/-- Every detected header row index is a grid row index. -/
theorem headerRows_lt (rows : List (List Cell)) :
    ∀ x ∈ (detectStructure rows).1, x < rows.length := by
  intro x hx
  rcases hb : (bestHeaderAux rows 0 none 0 0).1 with _ | j
  · simp only [detectStructure, detectHeader, hb] at hx
    have := fallbackHeaders_lt rows 0 x hx
    omega
  · simp only [detectStructure, detectHeader, hb] at hx
    split_ifs at hx with h2
    · have hj : j < rows.length := by
        rcases bestHeaderAux_some rows 0 none 0 0 j hb with h' | h'
        · exact Option.noConfusion h'
        · omega
      have := List.mem_range.mp hx
      omega
    · have := fallbackHeaders_lt rows 0 x hx
      omega

/-- Membership after the guarded footer append of a following row. -/
theorem footerPull_mem (header acc : List Nat) (n j x : Nat) :
    x ∈ footerPull header acc n j → x ∈ acc ∨ (x = j ∧ j < n ∧ ¬ j ∈ header) := by
  unfold footerPull
  split_ifs with h
  · intro hx
    rcases List.mem_append.mp hx with h' | h'
    · exact Or.inl h'
    · exact Or.inr ⟨by simpa using h', h.1, h.2.2⟩
  · exact Or.inl

/-- Every index the footer scan accumulates beyond its starting list is a
grid row index that is not a header row. -/
theorem footerAux_mem (rows : List (List Cell)) (n : Nat) (header : List Nat) :
    ∀ (fuel consec : Nat) (acc : List Nat), fuel ≤ n →
      (∀ y ∈ acc, y < n ∧ ¬ y ∈ header) →
      ∀ x ∈ footerAux rows n header fuel consec acc, x < n ∧ ¬ x ∈ header := by
  intro fuel
  induction fuel with
  | zero => intro consec acc _ hacc x hx; exact hacc x hx
  | succ i ih =>
    intro consec acc hfn hacc x hx
    have hinv : ¬ i ∈ header → ∀ y ∈ acc ++ [i], y < n ∧ ¬ y ∈ header := by
      intro hi y hy
      rcases List.mem_append.mp hy with h' | h'
      · exact hacc y h'
      · have : y = i := by simpa using h'
        subst this
        exact ⟨by omega, hi⟩
    simp only [footerAux] at hx
    split_ifs at hx with hhd hne hstop hkw hbrk
    · exact hacc x hx
    · exact hinv hhd x hx
    · exact ih (consec + 1) (acc ++ [i]) (by omega) (hinv hhd) x hx
    · refine ih 0 _ (by omega) ?_ x hx
      intro y hy
      rcases footerPull_mem header _ n (i + 2) y hy with h' | h'
      · rcases footerPull_mem header _ n (i + 1) y h' with h'' | ⟨rfl, hlt, hnh⟩
        · exact hinv hhd y h''
        · exact ⟨hlt, hnh⟩
      · rcases h' with ⟨rfl, hlt, hnh⟩
        exact ⟨hlt, hnh⟩
    · exact hacc x hx
    · exact ih 0 acc (by omega) hacc x hx

/-- C4: the header, footer and data index sets partition the grid row
indices — their union is exactly the set of row indices and they are
pairwise disjoint. -/
theorem claim_C4 (rows : List (List Cell)) :
    (∀ k, (k ∈ (detectStructure rows).1 ∨ k ∈ (detectStructure rows).2.1
        ∨ k ∈ dataRowsIdx rows.length (detectStructure rows).1 (detectStructure rows).2.1)
      ↔ k < rows.length) ∧
    (∀ k, ¬ (k ∈ (detectStructure rows).1 ∧ k ∈ (detectStructure rows).2.1)) ∧
    (∀ k, ¬ (k ∈ (detectStructure rows).1
        ∧ k ∈ dataRowsIdx rows.length (detectStructure rows).1 (detectStructure rows).2.1)) ∧
    (∀ k, ¬ (k ∈ (detectStructure rows).2.1
        ∧ k ∈ dataRowsIdx rows.length (detectStructure rows).1 (detectStructure rows).2.1)) := by
  have hH : ∀ x ∈ (detectStructure rows).1, x < rows.length := headerRows_lt rows
  have hF : ∀ x ∈ (detectStructure rows).2.1,
      x < rows.length ∧ ¬ x ∈ (detectStructure rows).1 :=
    footerAux_mem rows rows.length (detectStructure rows).1 rows.length 0 []
      (le_refl _) (by intro y hy; cases hy)
  have hD : ∀ k, k ∈ dataRowsIdx rows.length (detectStructure rows).1 (detectStructure rows).2.1
      ↔ (k < rows.length ∧ ¬ k ∈ (detectStructure rows).1
          ∧ ¬ k ∈ (detectStructure rows).2.1) := by
    intro k
    simp [dataRowsIdx, List.mem_filter, List.mem_range]
  refine ⟨?_, ?_, ?_, ?_⟩
  · intro k
    constructor
    · rintro (h | h | h)
      · exact hH k h
      · exact (hF k h).1
      · exact ((hD k).mp h).1
    · intro hk
      by_cases h1 : k ∈ (detectStructure rows).1
      · exact Or.inl h1
      by_cases h2 : k ∈ (detectStructure rows).2.1
      · exact Or.inr (Or.inl h2)
      · exact Or.inr (Or.inr ((hD k).mpr ⟨hk, h1, h2⟩))
  · rintro k ⟨h1, h2⟩
    exact (hF k h2).2 h1
  · rintro k ⟨h1, h2⟩
    exact ((hD k).mp h2).2.1 h1
  · rintro k ⟨h1, h2⟩
    exact ((hD k).mp h2).2.2 h1

/-- One step of the row loop unfolded. -/
theorem deriveGo_cons (cols : List String) (lh : Nat) (sel : List String)
    (row : List Cell) (rest : List (List Cell)) :
    deriveGo cols lh sel (row :: rest) =
      match passingCols cols row sel with
      | none => (false, row :: rest)
      | some [] => ((deriveGo cols lh sel rest).1, row :: (deriveGo cols lh sel rest).2)
      | some (c :: cs) => ((deriveGo cols lh sel rest).1,
          row.set lh (Cell.str (joinPlus (c :: cs))) :: (deriveGo cols lh sel rest).2) := rfl

/-- Writing one position of a row leaves every other position unchanged. -/
theorem getD_set_ne (a d : Cell) (l : List Cell) (i j : Nat) (h : ¬ j = i) :
    (l.set i a).getD j d = l.getD j d := by
  simp [List.getD_eq_getElem?_getD, List.getElem?_set_ne (fun hh => h hh.symm)]

/-- The row loop preserves the row count and every cell outside the LEDGER
HEAD position, whether it finishes or aborts. -/
theorem deriveGo_preserve (cols : List String) (lh : Nat) (sel : List String) :
    ∀ rows : List (List Cell),
      (deriveGo cols lh sel rows).2.length = rows.length ∧
      (∀ (r i : Nat), ¬ i = lh →
        ((deriveGo cols lh sel rows).2.getD r []).getD i Cell.blank
          = (rows.getD r []).getD i Cell.blank) := by
  intro rows
  induction rows with
  | nil => exact ⟨rfl, fun r i _ => rfl⟩
  | cons row rest ih =>
    rw [deriveGo_cons]
    cases hp : passingCols cols row sel with
    | none => exact ⟨rfl, fun r i _ => rfl⟩
    | some l =>
      cases l with
      | nil =>
        refine ⟨by simp [ih.1], ?_⟩
        intro r i hne
        cases r with
        | zero => rfl
        | succ r =>
          simp only [List.getD_cons_succ]
          exact ih.2 r i hne
      | cons c cs =>
        refine ⟨by simp [ih.1], ?_⟩
        intro r i hne
        cases r with
        | zero =>
          simp only [List.getD_cons_zero]
          exact getD_set_ne _ _ row lh i hne
        | succ r =>
          simp only [List.getD_cons_succ]
          exact ih.2 r i hne

/-- Counterexample to C9: on a table with the duplicated column "Amount" and
no LEDGER HEAD column, `process_ledger_head(["Amount"])` first appends the
LEDGER HEAD column (lines 242-243), then the pandas lookup of the duplicated
label raises inside `_is_numeric`, so the call returns failure — yet the
table now differs from the one before the call. -/
theorem claim_C9_counterexample :
    (processLedgerHead ⟨["Amount", "Amount"], [[Cell.num 5, Cell.num 5]]⟩ ["Amount"]).1
        = false ∧
    ¬ (processLedgerHead ⟨["Amount", "Amount"], [[Cell.num 5, Cell.num 5]]⟩ ["Amount"]).2
        = ⟨["Amount", "Amount"], [[Cell.num 5, Cell.num 5]]⟩ := by decide

/-- C9 as amended: `add_columns` is all-or-nothing (a failing call changes
nothing), while a failing `process_ledger_head` call can leave behind the
defensively created LEDGER HEAD column and the labels already written to
earlier rows — but it never touches any cell outside the LEDGER HEAD
position, never changes the column list beyond that one append, and never
adds or drops a row. -/
theorem claim_C9 :
    (∀ (s : Option Table) (names : List String),
        (addColumnsOp s names).1 = false → (addColumnsOp s names).2 = s) ∧
    (∀ (t : Table) (sel : List String),
        (processLedgerHead t sel).2.cols = (ensureLH t).cols ∧
        (processLedgerHead t sel).2.rows.length = (ensureLH t).rows.length ∧
        (∀ (r i : Nat), ¬ i = (ensureLH t).cols.indexOf "LEDGER HEAD" →
          ((processLedgerHead t sel).2.rows.getD r []).getD i Cell.blank
            = ((ensureLH t).rows.getD r []).getD i Cell.blank)) := by
  constructor
  · intro s names h
    cases s with
    | none => rfl
    | some t => simp [addColumnsOp] at h
  · intro t sel
    exact ⟨rfl, (deriveGo_preserve _ _ sel (ensureLH t).rows).1,
      (deriveGo_preserve _ _ sel (ensureLH t).rows).2⟩

/-- Witness for C9 as amended: the failing `add_columns` call with no loaded
table changes nothing, and the failing derivation of the counterexample
keeps exactly the columns of the defensive append. -/
theorem claim_C9_witness :
    (addColumnsOp none ["A"]).2 = none ∧
    (processLedgerHead ⟨["Amount", "Amount"], [[Cell.num 5, Cell.num 5]]⟩ ["Amount"]).2.cols
      = (ensureLH ⟨["Amount", "Amount"], [[Cell.num 5, Cell.num 5]]⟩).cols :=
  ⟨claim_C9.1 none ["A"] (by decide),
   (claim_C9.2 ⟨["Amount", "Amount"], [[Cell.num 5, Cell.num 5]]⟩ ["Amount"]).1⟩

/-- Folding over a filtered list equals folding over the full list when every
dropped element is an identity step. -/
theorem foldl_skip {α β : Type} (f : β → α → β) (p : α → Bool) :
    ∀ (l : List α) (b : β), (∀ a ∈ l, p a = false → ∀ b1 : β, f b1 a = b1) →
      List.foldl f b (l.filter p) = List.foldl f b l := by
  intro l
  induction l with
  | nil => intro b _; rfl
  | cons a l ih =>
    intro b h
    by_cases hp : p a = true
    · simp only [List.filter_cons, hp, if_true, List.foldl_cons]
      exact ih (f b a) (fun x hx hpx => h x (List.mem_cons_of_mem a hx) hpx)
    · have hp' : p a = false := by revert hp; cases p a <;> simp
      simp only [List.filter_cons, hp', Bool.false_eq_true, if_false, List.foldl_cons]
      rw [h a (List.mem_cons_self a l) hp']
      exact ih b (fun x hx hpx => h x (List.mem_cons_of_mem a hx) hpx)

/-- Index of a column appended to a list it does not occur in. -/
theorem indexOf_append_not_mem {l : List String} {c : String} (h : ¬ c ∈ l) :
    (l ++ [c]).indexOf c = l.length := by
  induction l with
  | nil => simp [List.indexOf_cons, List.indexOf_nil]
  | cons a l ih =>
    have ha : ¬ a = c := fun hh => h (hh ▸ List.mem_cons_self a l)
    have hc : ¬ c ∈ l := fun hh => h (List.mem_cons_of_mem a hh)
    have hbeq : (a == c) = false := by simp [ha]
    simp [List.cons_append, List.indexOf_cons, hbeq, ih hc]

/-- The cell just appended to a row sits at the old row length. -/
theorem getD_append_len : ∀ (r : List Cell) (x d : Cell), (r ++ [x]).getD r.length d = x := by
  intro r
  induction r with
  | nil => intro x d; rfl
  | cons a r ih =>
    intro x d
    simp only [List.cons_append, List.length_cons, List.getD_cons_succ]
    exact ih x d

/-- On a rectangular table, dropping the selected names that are not columns
of the table from the selection does not change the per-row passing list: a
missing name is skipped by the membership short-circuit, and the one name
that exists only after the defensive append — LEDGER HEAD itself — reads the
freshly appended blank cell and fails the numeric test. -/
theorem passingCols_filter_ghost (t : Table) (row : List Cell) (sel : List String)
    (hrow : row ∈ (ensureLH t).rows) (hwf : Wf t) :
    passingCols (ensureLH t).cols row (sel.filter (fun c => decide (c ∈ t.cols)))
      = passingCols (ensureLH t).cols row sel := by
  unfold passingCols
  apply foldl_skip
  intro c hc hcp b1
  have hcnot : ¬ c ∈ t.cols := by simpa using hcp
  cases b1 with
  | none => rfl
  | some l =>
    by_cases hmem : c ∈ (ensureLH t).cols
    · have hl : ¬ "LEDGER HEAD" ∈ t.cols := by
        intro hlh
        exact hcnot (by simpa [ensureLH, hlh] using hmem)
      have hcolseq : (ensureLH t).cols = t.cols ++ ["LEDGER HEAD"] := by
        simp [ensureLH, hl]
      have hceq : c = "LEDGER HEAD" := by
        rw [hcolseq] at hmem
        rcases List.mem_append.mp hmem with h' | h'
        · exact absurd h' hcnot
        · simpa using h'
      subst hceq
      have hcount : (ensureLH t).cols.count "LEDGER HEAD" = 1 := by
        rw [hcolseq, List.count_append, List.count_eq_zero.mpr hl]
        simp [List.count_singleton]
      have hcell : row.getD ((ensureLH t).cols.indexOf "LEDGER HEAD") Cell.blank
          = Cell.str "" := by
        have hrows : (ensureLH t).rows = t.rows.map (fun r => r ++ [Cell.str ""]) := by
          simp [ensureLH, hl]
        rw [hrows] at hrow
        rcases List.mem_map.mp hrow with ⟨r0, hr0, rfl⟩
        rw [hcolseq, indexOf_append_not_mem hl, ← hwf r0 hr0]
        exact getD_append_len r0 (Cell.str "") Cell.blank
      have htest : ledgerTest (Cell.str "") = false := rfl
      have hcell' : (row[List.indexOf "LEDGER HEAD" (ensureLH t).cols]?).getD Cell.blank
          = Cell.str "" := by
        rw [← List.getD_eq_getElem?_getD]; exact hcell
      simp [hmem, hcount, hcell', htest]
    · simp [hmem]

/-- Two selections with identical per-row passing lists drive the row loop
identically. -/
theorem deriveGo_congr (cols : List String) (lh : Nat) (sel sel' : List String) :
    ∀ rows : List (List Cell),
      (∀ row ∈ rows, passingCols cols row sel = passingCols cols row sel') →
      deriveGo cols lh sel rows = deriveGo cols lh sel' rows := by
  intro rows
  induction rows with
  | nil => intro _; rfl
  | cons row rest ih =>
    intro h
    rw [deriveGo_cons, deriveGo_cons, ← h row (List.mem_cons_self row rest),
      ih (fun r hrr => h r (List.mem_cons_of_mem row hrr))]

/-- An empty selection passes nothing, writes nothing and succeeds. -/
theorem deriveGo_nil_sel (cols : List String) (lh : Nat) :
    ∀ rows : List (List Cell), deriveGo cols lh [] rows = (true, rows) := by
  intro rows
  induction rows with
  | nil => rfl
  | cons row rest ih =>
    rw [deriveGo_cons]
    show ((deriveGo cols lh [] rest).1, row :: (deriveGo cols lh [] rest).2) = (true, row :: rest)
    rw [ih]

/-- C10: on a rectangular table, a selected name that is not a table column
is silently skipped — the derivation behaves exactly as if the selection had
been filtered down to the existing columns, and a selection containing no
table column at all succeeds and leaves the table as the defensive append
left it, writing no label anywhere. -/
theorem claim_C10 (t : Table) (sel : List String) (hwf : Wf t) :
    processLedgerHead t sel
        = processLedgerHead t (sel.filter (fun c => decide (c ∈ t.cols))) ∧
    ((∀ c ∈ sel, ¬ c ∈ t.cols) → processLedgerHead t sel = (true, ensureLH t)) := by
  have hmain : processLedgerHead t sel
      = processLedgerHead t (sel.filter (fun c => decide (c ∈ t.cols))) := by
    simp only [processLedgerHead]
    rw [deriveGo_congr _ _ sel (sel.filter (fun c => decide (c ∈ t.cols))) (ensureLH t).rows
      (fun row hrow => (passingCols_filter_ghost t row sel hrow hwf).symm)]
  refine ⟨hmain, ?_⟩
  intro hghost
  have hfilter : sel.filter (fun c => decide (c ∈ t.cols)) = [] := by
    apply List.filter_eq_nil_iff.mpr
    intro a ha
    simpa using hghost a ha
  rw [hmain, hfilter]
  simp only [processLedgerHead]
  rw [deriveGo_nil_sel]

/-- Witness for C10 at a concrete table with a non-existent selected name. -/
theorem claim_C10_witness :
    processLedgerHead ⟨["A"], [[Cell.num 3]]⟩ ["Ghost"]
        = processLedgerHead ⟨["A"], [[Cell.num 3]]⟩
            (["Ghost"].filter (fun c => decide (c ∈ (["A"] : List String)))) ∧
    processLedgerHead ⟨["A"], [[Cell.num 3]]⟩ ["Ghost"]
        = (true, ensureLH ⟨["A"], [[Cell.num 3]]⟩) :=
  ⟨(claim_C10 ⟨["A"], [[Cell.num 3]]⟩ ["Ghost"] (by unfold Wf; decide)).1,
   (claim_C10 ⟨["A"], [[Cell.num 3]]⟩ ["Ghost"] (by unfold Wf; decide)).2 (by decide)⟩
